import Mathlib

/-!
Verification development for the WhatsApp-bot event synchronization layer.

The definitions below are a shallow embedding of the JavaScript source:
MongoDB collections become Lean lists of records, mongoose documents become
structures, and the event handlers of `src/app.js` together with the model
methods of `src/models/*.model.js` become pure functions that thread the
store state explicitly.  JavaScript truthiness on strings is modelled by
comparison with `""`, on numbers by comparison with `0`, and nullable
values by `Option`.
-/

namespace WwebBot

/-! ### String helpers

`String.prototype.replace(pattern, repl)` with a string pattern replaces only
the FIRST occurrence of `pattern`; `String.prototype.includes` is a substring
test.  We implement both over the character list of the string. -/

/-- If `pat` is a prefix of `l`, return the remainder of `l` after `pat`. -/
def dropPrefixChars : List Char → List Char → Option (List Char)
  | [], l => some l
  | _ :: _, [] => none
  | p :: ps, c :: cs => if p == c then dropPrefixChars ps cs else none

/-- Replace the first occurrence of `pat` in the list by `rep`
(JavaScript `String.replace` with a string pattern). -/
def replaceFirstChars (pat rep : List Char) : List Char → List Char
  | [] =>
    match dropPrefixChars pat [] with
    | some rest => rep ++ rest
    | none => []
  | c :: cs =>
    match dropPrefixChars pat (c :: cs) with
    | some rest => rep ++ rest
    | none => c :: replaceFirstChars pat rep cs

/-- `s.replace(pat, rep)` — first occurrence only. -/
def replaceFirst (s pat rep : String) : String :=
  ⟨replaceFirstChars pat.data rep.data s.data⟩

/-- Substring containment: occurrence of `pat` somewhere in `s`
(JavaScript `String.includes`). -/
def strIncludes (s pat : String) : Bool :=
  (List.range (s.data.length + 1)).any
    (fun i => (dropPrefixChars pat.data (s.data.drop i)).isSome)

/-! ### Message records (`src/models/session.model.js`, messageSchema) -/

/-- One entry of the `reactions` array of a message document. -/
structure Reaction where
  emoji : String
  senderId : String
  timestamp : Nat
deriving Repr, DecidableEq

/-- The `media` sub-document (metadata only, never the payload). -/
structure MediaMeta where
  mimetype : Option String := none
  filename : Option String := none
  filesize : Option Nat := none
  url : Option String := none
deriving Repr, DecidableEq

/-- A document of the `Message` collection (messageSchema). The schema
fields `from`/`to` are Lean keywords-adjacent and are embedded as
`fromId`/`toId`. -/
structure MessageRecord where
  messageId : String
  chatId : String
  fromId : String
  toId : String
  author : Option String := none
  body : String := ""
  type : String := "chat"
  timestamp : Nat
  fromMe : Bool := false
  ack : Int := 0
  hasMedia : Bool := false
  media : MediaMeta := {}
  hasQuotedMsg : Bool := false
  quotedMessageId : Option String := none
  isForwarded : Bool := false
  forwardingScore : Nat := 0
  isStarred : Bool := false
  isEdited : Bool := false
  isDeleted : Bool := false
  mentionedIds : List String := []
  groupMentions : List String := []
  reactions : List Reaction := []
  vCards : List String := []
deriving Repr, DecidableEq

/-- An inbound message event from the session library, with the fields
`logMessage` and `updateLastMessage` read off it.  `timestamp = 0` models a
missing/falsy `message.timestamp`. -/
structure MsgEvent where
  id : String
  fromId : String
  toId : String
  author : Option String := none
  body : String := ""
  type : String := "chat"
  timestamp : Nat := 0
  fromMe : Bool := false
  ack : Int := 0
  hasMedia : Bool := false
  hasQuotedMsg : Bool := false
  isForwarded : Bool := false
  forwardingScore : Nat := 0
  isStarred : Bool := false
  mentionedIds : List String := []
  groupMentions : List String := []
  vCards : List String := []
deriving Repr, DecidableEq

/-- MongoDB `findOneAndUpdate`: apply `f` to the first document matching `p`,
leave everything else unchanged (no-op when nothing matches). -/
def findOneAndUpdate {α : Type} (db : List α) (p : α → Bool) (f : α → α) : List α :=
  match db with
  | [] => []
  | x :: xs => if p x then f x :: xs else x :: findOneAndUpdate xs p f

namespace Message

/-- `messageSchema.statics.logMessage`: idempotent create keyed by
`messageId` — if a document with the event's id exists it is returned
unchanged, otherwise a new document is created from the event.  `now` stands
for `new Date()` at call time. -/
def logMessage (db : List MessageRecord) (ev : MsgEvent) (now : Nat) :
    List MessageRecord × MessageRecord :=
  match db.find? (fun m => m.messageId == ev.id) with
  | some existing => (db, existing)
  | none =>
    let r : MessageRecord :=
      { messageId := ev.id
        chatId :=
          if strIncludes ev.fromId "@g.us" then ev.fromId
          else if ev.fromMe then ev.toId else ev.fromId
        fromId := ev.fromId
        toId := ev.toId
        author := ev.author
        body := ev.body
        type := if ev.type == "" then "chat" else ev.type
        timestamp := if ev.timestamp != 0 then ev.timestamp * 1000 else now
        fromMe := ev.fromMe
        ack := ev.ack
        hasMedia := ev.hasMedia
        hasQuotedMsg := ev.hasQuotedMsg
        isForwarded := ev.isForwarded
        forwardingScore := ev.forwardingScore
        isStarred := ev.isStarred
        mentionedIds := ev.mentionedIds
        groupMentions := ev.groupMentions
        vCards := ev.vCards }
    (db ++ [r], r)

/-- Options object of `getChatMessages` with the source's defaults. -/
structure ChatQueryOptions where
  limit : Nat := 50
  before : Option Nat := none
  after : Option Nat := none
  includeDeleted : Bool := false
deriving Repr, DecidableEq

/-- The MongoDB query built by `getChatMessages`: match on `chatId`, exclude
soft-deleted rows unless `includeDeleted`, and apply the `before`/`after`
cursor (`before` takes precedence, as in the source's `if/else if`). -/
def chatQueryPred (chatId : String) (o : ChatQueryOptions) (m : MessageRecord) : Bool :=
  m.chatId == chatId
    && (o.includeDeleted || !m.isDeleted)
    && (match o.before with
        | some b => decide (m.timestamp < b)
        | none =>
          match o.after with
          | some a => decide (a < m.timestamp)
          | none => true)

/-- Sort key of `.sort(\x7b timestamp: -1 \x7d)`: newest first. -/
def tsDesc (a b : MessageRecord) : Prop := b.timestamp ≤ a.timestamp

instance : DecidableRel tsDesc := fun a b => Nat.decLe b.timestamp a.timestamp

/-- `messageSchema.statics.getChatMessages`: filter, sort newest-first,
truncate to `limit`, and reverse into chronological order. -/
def getChatMessages (db : List MessageRecord) (chatId : String)
    (o : ChatQueryOptions) : List MessageRecord :=
  (((db.filter (chatQueryPred chatId o)).insertionSort tsDesc).take o.limit).reverse

end Message

/-- `messageSchema.methods.addReaction`: drop any previous reaction of the
same sender, then append the new one unless the emoji is empty. -/
def MessageRecord.addReaction (m : MessageRecord) (emoji senderId : String)
    (now : Nat) : MessageRecord :=
  let remaining := m.reactions.filter (fun r => !(r.senderId == senderId))
  if emoji != "" then
    { m with reactions := remaining ++ [⟨emoji, senderId, now⟩] }
  else
    { m with reactions := remaining }

/-! ### Dispatcher message handlers (`src/app.js`) -/

/-- Payload of the `message:ack` broadcast. -/
structure AckPayload where
  messageId : String
  ack : Int
  ackLabel : Option String
deriving Repr, DecidableEq

/-- The ordinal label list indexed at `ack + 1` in `handleMessageAck`
(out-of-range indexing yields JavaScript `undefined`, i.e. `none`). -/
def ackLabel (ack : Int) : Option String :=
  if ack + 1 < 0 then none
  else ["error", "pending", "sent", "received", "read", "played"].get? (ack + 1).toNat

/-- `handleMessageAck`: unconditionally overwrite the stored ack level of the
message and broadcast `\x7bmessageId, ack, ackLabel\x7d`. -/
def handleMessageAck (db : List MessageRecord) (messageId : String) (ack : Int) :
    List MessageRecord × AckPayload :=
  (findOneAndUpdate db (fun m => m.messageId == messageId) (fun m => { m with ack := ack }),
   { messageId := messageId, ack := ack, ackLabel := ackLabel ack })

/-- Payload of the `message:revoked` broadcast — the message id and nothing
else. -/
structure RevokePayload where
  messageId : String
deriving Repr, DecidableEq

/-- The fixed tombstone body substituted for a deleted message. -/
def tombstoneBody : String := "This message was deleted"

/-- `handleMessageRevoke`: when the revoked message is known, mark the stored
record deleted, replace its body by the tombstone, and broadcast only the
message id. -/
def handleMessageRevoke (db : List MessageRecord) (revoked? : Option String) :
    List MessageRecord × Option RevokePayload :=
  match revoked? with
  | none => (db, none)
  | some mid =>
    (findOneAndUpdate db (fun m => m.messageId == mid)
      (fun m => { m with isDeleted := true, body := tombstoneBody }),
     some ⟨mid⟩)

/-- A `message_reaction` event (`reaction = ""` models an empty/removed
reaction, which is falsy in the source's `if (reaction.reaction)`). -/
structure ReactionEvent where
  msgId : String
  senderId : String
  reaction : String
deriving Repr, DecidableEq

/-- `handleMessageReaction`: a non-empty reaction is `$push`ed onto the
`reactions` array of the message; an empty one `$pull`s every entry of that
sender. -/
def handleMessageReaction (db : List MessageRecord) (ev : ReactionEvent)
    (now : Nat) : List MessageRecord :=
  if ev.reaction != "" then
    findOneAndUpdate db (fun m => m.messageId == ev.msgId)
      (fun m => { m with reactions := m.reactions ++ [⟨ev.reaction, ev.senderId, now⟩] })
  else
    findOneAndUpdate db (fun m => m.messageId == ev.msgId)
      (fun m => { m with reactions := m.reactions.filter (fun r => !(r.senderId == ev.senderId)) })

/-! ### Watchlist (`src/models/watchlist.model.js`) -/

/-- The denormalized `lastMessage` preview of a watch entry. -/
structure LastMessagePreview where
  content : String := ""
  timestamp : Option Nat := none
  fromId : Option String := none
  fromMe : Bool := false
  type : String := "chat"
deriving Repr, DecidableEq

/-- A document of the `Watchlist` collection (watchlistSchema). -/
structure WatchEntry where
  chatId : String
  chatName : String
  chatType : String
  isActive : Bool := true
  notifications : Bool := true
  order : Nat := 0
  pinned : Bool := false
  unreadCount : Nat := 0
  lastMessage : LastMessagePreview := {}
  profilePicUrl : Option String := none
  notes : String := ""
  tags : List String := []
deriving Repr, DecidableEq

/-- `watchlistSchema.methods.updateLastMessage`: refresh the preview and
increment `unreadCount` unless the message is a self-sent echo. -/
def WatchEntry.updateLastMessage (w : WatchEntry) (m : MsgEvent) (now : Nat) : WatchEntry :=
  let w' :=
    { w with
      lastMessage :=
        { content := m.body
          timestamp := some (if m.timestamp != 0 then m.timestamp * 1000 else now)
          fromId := match m.author with
            | some a => some a
            | none => some m.fromId
          fromMe := m.fromMe
          type := if m.type == "" then "chat" else m.type } }
  if !m.fromMe then { w' with unreadCount := w'.unreadCount + 1 } else w'

/-- `watchlistSchema.methods.markAsRead`. -/
def WatchEntry.markAsRead (w : WatchEntry) : WatchEntry :=
  { w with unreadCount := 0 }

namespace Watchlist

/-- `watchlistSchema.statics.addToWatchlist`: return an already-active entry
unchanged, reactivate a soft-deleted one, or create a new entry whose
`order` is one more than the largest `order` among active entries
(`(maxOrder?.order || 0) + 1`). -/
def addToWatchlist (db : List WatchEntry) (chatData : WatchEntry) :
    List WatchEntry × WatchEntry :=
  match db.find? (fun e => e.chatId == chatData.chatId) with
  | some existing =>
    if !existing.isActive then
      (findOneAndUpdate db (fun e => e.chatId == chatData.chatId)
        (fun e => { e with isActive := true }),
       { existing with isActive := true })
    else (db, existing)
  | none =>
    let maxOrder := ((db.filter (fun e => e.isActive)).map (fun e => e.order)).foldr max 0
    let entry := { chatData with order := maxOrder + 1 }
    (db ++ [entry], entry)

end Watchlist

/-! ### Group auto-message settings (`src/models/settings.model.js`) -/

/-- One trigger of `autoMessageConfigSchema`. -/
structure AutoMessageConfig where
  enabled : Bool := false
  message : String := ""
  includeGroupRules : Bool := false
  mentionUser : Bool := true
  includeMedia : Bool := false
  mediaUrl : Option String := none
  delay : Nat := 3000
deriving Repr, DecidableEq

/-- The three independent triggers of `groupSettingsSchema.autoMessages`. -/
structure AutoMessages where
  welcome : AutoMessageConfig :=
    { enabled := false, message := "Welcome to the group, @{user}! 👋", mentionUser := true }
  farewell : AutoMessageConfig :=
    { enabled := false, message := "Goodbye, {user}! We'll miss you. 👋", mentionUser := false }
  rules : AutoMessageConfig := { enabled := false, message := "", mentionUser := false }
deriving Repr, DecidableEq

/-- A document of the `GroupSettings` collection (the fields the join/leave
handlers read). -/
structure GroupSettings where
  groupId : String
  groupName : String
  autoMessages : AutoMessages := {}
  groupRules : String := ""
  isActive : Bool := true
deriving Repr, DecidableEq

/-- A contact as returned by `client.getContactById`: `number` may be
missing/falsy, in which case the source falls back to `contact.id.user`. -/
structure Contact where
  idUser : String
  number : Option String := none
deriving Repr, DecidableEq

/-- A `group_join`/`group_leave` notification. -/
structure GroupNotification where
  chatId : String
  recipientIds : List String
deriving Repr, DecidableEq

/-- Broadcast events emitted by the group-join handler. -/
inductive WsEvent where
  | groupJoin (notif : GroupNotification)
  | watchlistUpdate (chatId : String) (event : String) (members : List String)
deriving Repr, DecidableEq

/-- A send issued through `chat.sendMessage(message, \x7b mentions \x7d)`. -/
structure SendAction where
  chatId : String
  message : String
  mentions : List Contact
deriving Repr, DecidableEq

/-- One iteration of the `for (const id of joinedIds)` loop of
`handleGroupJoin`: resolve the contact (a failure is skipped silently),
collect it for the mention set, and — only when `mentionUser` is set —
replace the first occurrence of `"\x7buser\x7d"` and then of `"@\x7buser\x7d"` in the
message by `"@" ++ (contact.number || contact.id.user)`. -/
def welcomeStep (cfg : AutoMessageConfig) (lookup : String → Option Contact)
    (st : String × List Contact) (id : String) : String × List Contact :=
  match lookup id with
  | none => st
  | some contact =>
    let mentions := st.2 ++ [contact]
    let message :=
      if cfg.mentionUser then
        let handle := "@" ++ contact.number.getD contact.idUser
        replaceFirst (replaceFirst st.1 "{user}" handle) "@{user}" handle
      else st.1
    (message, mentions)

/-- The welcome-message construction of `handleGroupJoin`: run the member
loop starting from the configured template, then optionally append the
group's static rules. -/
def buildWelcomeMessage (cfg : AutoMessageConfig) (joinedIds : List String)
    (lookup : String → Option Contact) (groupRules : String) :
    String × List Contact :=
  let (msg, mentions) := joinedIds.foldl (welcomeStep cfg lookup) (cfg.message, [])
  let msg :=
    if cfg.includeGroupRules && groupRules != "" then
      msg ++ "\n\n📋 *Group Rules*:\n" ++ groupRules
    else msg
  (msg, mentions)

/-- `handleGroupJoin` (src/app.js): broadcast the join notification, send a
welcome message when the group's welcome trigger is enabled and active
settings exist, and emit a watchlist update when the group is actively
watched.  Returns the broadcasts in emission order and the sends issued. -/
def handleGroupJoin (settingsDb : List GroupSettings) (watchDb : List WatchEntry)
    (lookup : String → Option Contact) (notif : GroupNotification) :
    List WsEvent × List SendAction :=
  let joinBroadcast := [WsEvent.groupJoin notif]
  let settings := settingsDb.find? (fun s => s.groupId == notif.chatId && s.isActive)
  let sends :=
    match settings with
    | some s =>
      if s.autoMessages.welcome.enabled then
        let cfg := s.autoMessages.welcome
        let (msg, mentions) := buildWelcomeMessage cfg notif.recipientIds lookup s.groupRules
        [{ chatId := notif.chatId, message := msg,
           mentions := if cfg.mentionUser then mentions else [] }]
      else []
    | none => []
  let watchBroadcast :=
    match watchDb.find? (fun e => e.chatId == notif.chatId && e.isActive) with
    | some _ => [WsEvent.watchlistUpdate notif.chatId "member_join" notif.recipientIds]
    | none => []
  (joinBroadcast ++ watchBroadcast, sends)

/-- Recognizer for the `group:join` broadcast. -/
def WsEvent.isGroupJoin : WsEvent → Bool
  | .groupJoin _ => true
  | _ => false

/-! ### Session state machine (`src/config/whatsapp.js`)

The module-level mutable cells `clientStatus` and `currentQR`, driven by the
client events attached in `attachEventListeners` plus the explicit
`initializeClient` call.  `getCurrentQR` returns the pending pairing
payload. -/

/-- `CLIENT_STATUS`. -/
inductive ClientStatus where
  | initializing
  | qr_ready
  | authenticated
  | ready
  | disconnected
  | failed
deriving Repr, DecidableEq

/-- The volatile session state: status cell plus pending pairing payload. -/
structure ClientState where
  status : ClientStatus
  currentQR : Option String
deriving Repr, DecidableEq

/-- Before any initialize call: disconnected, no pairing payload. -/
def initialClientState : ClientState := ⟨.disconnected, none⟩

/-- The events that drive the state cells: the explicit `initializeClient`
call and the client events handled in `attachEventListeners`. -/
inductive ClientEvent where
  | initializeClient
  | qr (payload : String)
  | authenticated
  | ready
  | disconnected (reason : String)
  | authFailure (msg : String)
deriving Repr, DecidableEq

/-- One event handler step.  `initializeClient` is a no-op while READY and
otherwise enters INITIALIZING (leaving `currentQR` untouched); the `qr`,
`authenticated`, `ready`, `disconnected` and `auth_failure` handlers update
exactly the cells the source assigns. -/
def clientStep (st : ClientState) : ClientEvent → ClientState
  | .initializeClient => if st.status = .ready then st else { st with status := .initializing }
  | .qr p => { status := .qr_ready, currentQR := some p }
  | .authenticated => { status := .authenticated, currentQR := none }
  | .ready => { st with status := .ready }
  | .disconnected _ => { status := .disconnected, currentQR := none }
  | .authFailure _ => { st with status := .failed }

/-- Run the machine from the initial state over an event sequence. -/
def runClient (events : List ClientEvent) : ClientState :=
  events.foldl clientStep initialClientState

/-- `getCurrentQR` — the pending pairing payload. -/
def getCurrentQR (st : ClientState) : Option String := st.currentQR

/-! ### Concrete sample data used by witnesses -/

/-- A stored message record used as concrete input. -/
def sampleRecord : MessageRecord :=
  { messageId := "m1", chatId := "chat1", fromId := "111@c.us", toId := "222@c.us",
    timestamp := 5 }

/-- A concrete inbound message event. -/
def sampleEvent : MsgEvent :=
  { id := "msg1", fromId := "111@c.us", toId := "222@c.us", body := "hello",
    timestamp := 10 }

/-- A concrete watch entry. -/
def sampleWatch : WatchEntry :=
  { chatId := "A@g.us", chatName := "Alpha", chatType := "group", order := 4 }

/-- A concrete non-self inbound message for the watchlist scenario. -/
def sampleInbound : MsgEvent :=
  { id := "in1", fromId := "333@c.us", toId := "A@g.us", body := "hey",
    timestamp := 20, fromMe := false }

/-- Group settings whose welcome trigger is enabled with the spec's
scenario template. -/
def sampleWelcomeSettings : GroupSettings :=
  { groupId := "G@g.us", groupName := "G",
    autoMessages :=
      { welcome :=
          { enabled := true, message := "Hi @{user}!", mentionUser := true, delay := 0 } } }

/-- Group settings whose welcome trigger is disabled. -/
def sampleDisabledSettings : GroupSettings :=
  { groupId := "G@g.us", groupName := "G",
    autoMessages := { welcome := { enabled := false, message := "Hi @{user}!" } } }

/-- Contact resolution that knows exactly the joining member X. -/
def sampleLookup : String → Option Contact :=
  fun id => if id == "X@c.us" then some { idUser := "X", number := some "123" } else none

/-- The join notification for member X joining group G. -/
def sampleJoin : GroupNotification := { chatId := "G@g.us", recipientIds := ["X@c.us"] }

/-- A stored message of conversation `chat1` at a given timestamp. -/
def chatMsg (id : String) (t : Nat) : MessageRecord :=
  { messageId := id, chatId := "chat1", fromId := "111@c.us", toId := "222@c.us",
    timestamp := t }

/-- A soft-deleted (inactive) watch entry. -/
def sampleInactiveWatch : WatchEntry :=
  { chatId := "B@g.us", chatName := "Beta", chatType := "group", order := 7,
    isActive := false }

end WwebBot

namespace WwebBot

/-! ### Shared helper lemmas -/

/-- `find?` skips a prefix in which nothing matches. -/
theorem find?_append_of_none {α : Type} (p : α → Bool) {l₁ : List α} (l₂ : List α)
    (h : l₁.find? p = none) : (l₁ ++ l₂).find? p = l₂.find? p := by
  induction l₁ with
  | nil => rfl
  | cons x xs ih =>
    rw [List.find?_cons] at h
    cases hx : p x with
    | true => rw [hx] at h; exact absurd h (by simp)
    | false =>
      rw [hx] at h
      simpa [List.find?_cons, hx] using ih h

/-- A conditional-update map is the identity when no element matches. -/
theorem map_update_noop {α : Type} (p : α → Bool) (f : α → α) (l : List α)
    (h : ∀ x ∈ l, p x = false) :
    l.map (fun x => if p x then f x else x) = l := by
  induction l with
  | nil => rfl
  | cons x xs ih =>
    have hx := h x (by simp)
    simp [hx, ih (fun y hy => h y (List.mem_cons_of_mem _ hy))]

/-- When the matching key occurs (at most) once, the first-match update of
`findOneAndUpdate` coincides with updating every matching element. -/
theorem findOneAndUpdate_eq_map {α : Type} (key : α → String) (f : α → α)
    (db : List α) (k : String)
    (huniq : db.Pairwise (fun a b => key a ≠ key b)) (hr : ∃ r ∈ db, key r = k) :
    findOneAndUpdate db (fun x => key x == k) f =
      db.map (fun x => if key x == k then f x else x) := by
  induction db with
  | nil => rfl
  | cons x xs ih =>
    rw [List.pairwise_cons] at huniq
    obtain ⟨hx, hxs⟩ := huniq
    have hshow : findOneAndUpdate (x :: xs) (fun y => key y == k) f =
        if (key x == k) = true then f x :: xs
        else x :: findOneAndUpdate xs (fun y => key y == k) f := rfl
    cases hpx : (key x == k) with
    | true =>
      have hxk : key x = k := by simpa using hpx
      have hnone : ∀ y ∈ xs, (key y == k) = false := by
        intro y hy
        rw [beq_eq_false_iff_ne, ← hxk]
        exact fun hc => hx y hy hc.symm
      have hmap := map_update_noop (fun y => key y == k) f xs hnone
      rw [hshow, if_pos hpx, List.map_cons, if_pos hpx, hmap]
    | false =>
      have hrx : ∃ r ∈ xs, key r = k := by
        obtain ⟨r, hrmem, hrk⟩ := hr
        rcases List.mem_cons.mp hrmem with h1 | h1
        · exfalso
          rw [h1] at hrk
          simp [hrk] at hpx
        · exact ⟨r, h1, hrk⟩
      have hne : ¬ ((key x == k) = true) := by simp [hpx]
      rw [hshow, if_neg hne, List.map_cons, if_neg hne, ih hxs hrx]

/-- `find?` after `findOneAndUpdate` on the found element, provided the
update preserves the predicate. -/
theorem find?_findOneAndUpdate {α : Type} (db : List α) (p : α → Bool) (f : α → α)
    (r : α) (hfind : db.find? p = some r) (hf : p (f r) = true) :
    (findOneAndUpdate db p f).find? p = some (f r) := by
  induction db with
  | nil => simp at hfind
  | cons x xs ih =>
    cases hx : p x with
    | true =>
      rw [List.find?_cons_of_pos xs hx] at hfind
      have hxr : x = r := by injection hfind
      have hun : findOneAndUpdate (x :: xs) p f = f x :: xs := by
        simp [findOneAndUpdate, hx]
      rw [hun, hxr, List.find?_cons_of_pos xs hf]
    | false =>
      rw [List.find?_cons_of_neg xs (by simp [hx])] at hfind
      have hun : findOneAndUpdate (x :: xs) p f = x :: findOneAndUpdate xs p f := by
        simp [findOneAndUpdate, hx]
      rw [hun, List.find?_cons_of_neg _ (by simp [hx])]
      exact ih hfind

/-! ### Claim C1 — reaction dispatcher vs. the one-reaction-per-sender
invariant -/

/-- C1 (code bug): processing two reaction events of the same sender through
the dispatcher's raw array-push leaves TWO entries for that sender on the
stored record, while the model's own `addReaction` method keeps exactly one;
an empty-emoji event does remove every entry of the sender. -/
theorem dispatcher_reaction_push_duplicates :
    ((handleMessageReaction (handleMessageReaction [sampleRecord] ⟨"m1", "s1", "x"⟩ 1)
        ⟨"m1", "s1", "x"⟩ 2).map
      (fun m => m.reactions.countP (fun r => r.senderId == "s1"))) = [2]
    ∧ ((sampleRecord.addReaction "x" "s1" 1).addReaction "x" "s1" 2).reactions.countP
        (fun r => r.senderId == "s1") = 1
    ∧ ((handleMessageReaction
          (handleMessageReaction (handleMessageReaction [sampleRecord] ⟨"m1", "s1", "x"⟩ 1)
            ⟨"m1", "s1", "x"⟩ 2) ⟨"m1", "s1", ""⟩ 3).map (fun m => m.reactions)) = [[]] := by
  decide

/-! ### Claim C2 — idempotent message logging -/

/-- C2: logging the same message id twice stores exactly one record keyed by
it, and the second call returns the first call's store and record
unchanged. -/
theorem logMessage_idempotent (db : List MessageRecord) (ev ev' : MsgEvent)
    (now now' : Nat) (hid : ev'.id = ev.id)
    (huniq : db.countP (fun m => m.messageId == ev.id) ≤ 1) :
    Message.logMessage (Message.logMessage db ev now).1 ev' now' =
      Message.logMessage db ev now
    ∧ (Message.logMessage db ev now).1.countP (fun m => m.messageId == ev.id) = 1 := by
  unfold Message.logMessage
  cases hfind : db.find? (fun m => m.messageId == ev.id) with
  | some m =>
    have hpm := List.find?_some hfind
    have hmem : m ∈ db := List.mem_of_find?_eq_some hfind
    have hpos : 0 < db.countP (fun m => m.messageId == ev.id) :=
      List.countP_pos_iff.mpr ⟨m, hmem, hpm⟩
    simp only [hfind, hid]
    exact ⟨by simp [hfind], by omega⟩
  | none =>
    have hzero : db.countP (fun m => m.messageId == ev.id) = 0 := by
      rw [List.countP_eq_zero]
      intro a ha
      exact List.find?_eq_none.mp hfind a ha
    simp only [hfind, hid]
    constructor
    · rw [find?_append_of_none _ _ hfind]
      simp
    · rw [List.countP_append, hzero]
      simp

/-- Witness for C2 at a concrete event and an empty store. -/
theorem logMessage_idempotent_witness :
    Message.logMessage (Message.logMessage [] sampleEvent 7).1 sampleEvent 8 =
      Message.logMessage [] sampleEvent 7
    ∧ (Message.logMessage [] sampleEvent 7).1.countP
        (fun m => m.messageId == sampleEvent.id) = 1 :=
  logMessage_idempotent [] sampleEvent sampleEvent 7 8 rfl (by decide)

/-! ### Claim C9 — pairing payload vs. session status -/

/-- C9 (counterexample): after INITIALIZING → QR_READY → auth-failure the
machine is in FAILED with the stale pairing payload still present, so the
payload is not non-null only in QR_READY. -/
theorem qr_payload_nonnull_in_failed :
    (runClient [.initializeClient, .qr "Q", .authFailure "boom"]).status = .failed
    ∧ getCurrentQR (runClient [.initializeClient, .qr "Q", .authFailure "boom"]) = some "Q" := by
  decide

/-- Every single handler step re-establishes the amended payload/status
relationship, whatever the previous state was. -/
theorem clientStep_invariant (st : ClientState) (e : ClientEvent) :
    ((clientStep st e).status = .authenticated ∨ (clientStep st e).status = .disconnected →
      (clientStep st e).currentQR = none)
    ∧ ((clientStep st e).status = .qr_ready → (clientStep st e).currentQR ≠ none) := by
  cases e with
  | initializeClient =>
    by_cases h : st.status = .ready <;> simp [clientStep, h]
  | qr p => simp [clientStep]
  | authenticated => simp [clientStep]
  | ready => simp [clientStep]
  | disconnected r => simp [clientStep]
  | authFailure m => simp [clientStep]

/-- The amended relationship is preserved along any run. -/
theorem foldl_clientStep_invariant (es : List ClientEvent) (st : ClientState)
    (h : (st.status = .authenticated ∨ st.status = .disconnected → st.currentQR = none)
      ∧ (st.status = .qr_ready → st.currentQR ≠ none)) :
    ((es.foldl clientStep st).status = .authenticated ∨
        (es.foldl clientStep st).status = .disconnected →
      (es.foldl clientStep st).currentQR = none)
    ∧ ((es.foldl clientStep st).status = .qr_ready →
      (es.foldl clientStep st).currentQR ≠ none) := by
  induction es generalizing st with
  | nil => exact h
  | cons e es ih => exact ih (clientStep st e) (clientStep_invariant st e)

/-- C9 (amended): in every reachable state the pairing payload is null in
AUTHENTICATED and DISCONNECTED (those transitions clear it) and non-null in
QR_READY; transitions into INITIALIZING, READY and FAILED do not clear it,
so a stale payload may survive there. -/
theorem qr_payload_invariant_amended (es : List ClientEvent) :
    ((runClient es).status = .authenticated ∨ (runClient es).status = .disconnected →
      getCurrentQR (runClient es) = none)
    ∧ ((runClient es).status = .qr_ready → getCurrentQR (runClient es) ≠ none) :=
  foldl_clientStep_invariant es initialClientState (by simp [initialClientState])

/-- Witness for C9's amended claim on a concrete run. -/
theorem qr_payload_invariant_amended_witness :
    getCurrentQR (runClient [.qr "Q", .authenticated]) = none :=
  (qr_payload_invariant_amended [.qr "Q", .authenticated]).1 (by decide)

/-! ### Claim C4 — unread counting for a watched conversation -/

/-- C4: N non-self inbound messages raise `unreadCount` by exactly N, a
self-sent echo leaves it unchanged, and one `markAsRead` resets it to 0. -/
theorem unread_count_spec (w : WatchEntry) (ms : List MsgEvent) (now : Nat)
    (h : ∀ m ∈ ms, m.fromMe = false) :
    (ms.foldl (fun acc m => acc.updateLastMessage m now) w).unreadCount
      = w.unreadCount + ms.length
    ∧ ((ms.foldl (fun acc m => acc.updateLastMessage m now) w).markAsRead).unreadCount = 0
    ∧ (∀ (m : MsgEvent) (t : Nat), m.fromMe = true →
        (w.updateLastMessage m t).unreadCount = w.unreadCount) := by
  refine ⟨?_, by simp [WatchEntry.markAsRead],
    fun m t hm => by simp [WatchEntry.updateLastMessage, hm]⟩
  induction ms generalizing w with
  | nil => simp
  | cons m ms ih =>
    have hm := h m (by simp)
    have hstep : (w.updateLastMessage m now).unreadCount = w.unreadCount + 1 := by
      simp [WatchEntry.updateLastMessage, hm]
    simp only [List.foldl_cons, List.length_cons]
    rw [ih (w.updateLastMessage m now) (fun x hx => h x (List.mem_cons_of_mem _ hx)), hstep]
    omega

/-- Witness for C4: two non-self messages and a mark-read on a concrete
entry. -/
theorem unread_count_spec_witness :
    (([sampleInbound, sampleInbound].foldl
        (fun acc m => acc.updateLastMessage m 9) sampleWatch).unreadCount
      = sampleWatch.unreadCount + [sampleInbound, sampleInbound].length)
    ∧ ((([sampleInbound, sampleInbound].foldl
        (fun acc m => acc.updateLastMessage m 9) sampleWatch).markAsRead).unreadCount = 0)
    ∧ (∀ (m : MsgEvent) (t : Nat), m.fromMe = true →
        (sampleWatch.updateLastMessage m t).unreadCount = sampleWatch.unreadCount) :=
  unread_count_spec sampleWatch [sampleInbound, sampleInbound] 9 (by decide)

/-! ### Claim C7 — disabled welcome trigger sends nothing -/

/-- C7: when the group has no active settings document or its welcome
trigger is disabled, a join event issues no send, while the `group:join`
broadcast is still emitted exactly once. -/
theorem welcome_disabled_no_send (sdb : List GroupSettings) (wdb : List WatchEntry)
    (lookup : String → Option Contact) (notif : GroupNotification)
    (hdis : ∀ s, sdb.find? (fun s => s.groupId == notif.chatId && s.isActive) = some s →
      s.autoMessages.welcome.enabled = false) :
    (handleGroupJoin sdb wdb lookup notif).2 = []
    ∧ (handleGroupJoin sdb wdb lookup notif).1.countP WsEvent.isGroupJoin = 1 := by
  unfold handleGroupJoin
  cases hfind : sdb.find? (fun s => s.groupId == notif.chatId && s.isActive) with
  | none =>
    cases hw : wdb.find? (fun e => e.chatId == notif.chatId && e.isActive) <;>
      simp [hfind, hw, WsEvent.isGroupJoin]
  | some s =>
    have hs := hdis s hfind
    cases hw : wdb.find? (fun e => e.chatId == notif.chatId && e.isActive) <;>
      simp [hfind, hw, hs, WsEvent.isGroupJoin]

/-- Witness for C7: disabled settings for the sample group. -/
theorem welcome_disabled_no_send_witness :
    (handleGroupJoin [sampleDisabledSettings] [] sampleLookup sampleJoin).2 = []
    ∧ (handleGroupJoin [sampleDisabledSettings] [] sampleLookup sampleJoin).1.countP
        WsEvent.isGroupJoin = 1 :=
  welcome_disabled_no_send [sampleDisabledSettings] [] sampleLookup sampleJoin
    (by intro s hs; simp [sampleDisabledSettings] at hs; simp [← hs, sampleDisabledSettings])

/-! ### Claim C8 — watch-registry add semantics -/

/-- `findOneAndUpdate` never adds or removes documents. -/
theorem findOneAndUpdate_length {α : Type} (db : List α) (p : α → Bool) (f : α → α) :
    (findOneAndUpdate db p f).length = db.length := by
  induction db with
  | nil => rfl
  | cons x xs ih =>
    cases hx : p x with
    | true => simp [findOneAndUpdate, hx]
    | false => simp [findOneAndUpdate, hx, ih]

/-- C8: `addToWatchlist` returns an already-active entry unchanged (store
untouched); for a soft-deleted entry it returns the reactivated record and
the store now holds that reactivated record under the conversation id, with
nothing appended; and otherwise it appends a new entry whose `order` is the
maximum `order` among active entries plus one. -/
theorem addToWatchlist_spec (db : List WatchEntry) (c : WatchEntry) :
    (∀ e, db.find? (fun x => x.chatId == c.chatId) = some e → e.isActive = true →
      Watchlist.addToWatchlist db c = (db, e))
    ∧ (∀ e, db.find? (fun x => x.chatId == c.chatId) = some e → e.isActive = false →
      (Watchlist.addToWatchlist db c).2 = { e with isActive := true }
      ∧ (Watchlist.addToWatchlist db c).1.find? (fun x => x.chatId == c.chatId)
          = some { e with isActive := true }
      ∧ (Watchlist.addToWatchlist db c).1.length = db.length)
    ∧ (db.find? (fun x => x.chatId == c.chatId) = none →
      (Watchlist.addToWatchlist db c).2.order =
        ((db.filter (fun e => e.isActive)).map (fun e => e.order)).foldr max 0 + 1
      ∧ (Watchlist.addToWatchlist db c).1 = db ++ [(Watchlist.addToWatchlist db c).2]) := by
  refine ⟨?_, ?_, ?_⟩
  · intro e hfind hact
    unfold Watchlist.addToWatchlist
    rw [hfind]
    simp [hact]
  · intro e hfind hact
    have hpe := List.find?_some hfind
    have hstore : (Watchlist.addToWatchlist db c).1
        = findOneAndUpdate db (fun x => x.chatId == c.chatId)
            (fun x => { x with isActive := true }) := by
      unfold Watchlist.addToWatchlist
      rw [hfind]
      simp [hact]
    refine ⟨?_, ?_, ?_⟩
    · unfold Watchlist.addToWatchlist
      rw [hfind]
      simp [hact]
    · rw [hstore]
      exact find?_findOneAndUpdate db _ _ e hfind (by simpa using hpe)
    · rw [hstore]
      exact findOneAndUpdate_length db _ _
  · intro hfind
    unfold Watchlist.addToWatchlist
    rw [hfind]
    simp

/-- Witness for C8 on the already-active branch and on the soft-deleted
(reactivation) branch. -/
theorem addToWatchlist_spec_witness :
    Watchlist.addToWatchlist [sampleWatch] sampleWatch = ([sampleWatch], sampleWatch)
    ∧ ((Watchlist.addToWatchlist [sampleInactiveWatch] sampleInactiveWatch).2
        = { sampleInactiveWatch with isActive := true }
      ∧ (Watchlist.addToWatchlist [sampleInactiveWatch] sampleInactiveWatch).1.find?
          (fun x => x.chatId == sampleInactiveWatch.chatId)
        = some { sampleInactiveWatch with isActive := true }
      ∧ (Watchlist.addToWatchlist [sampleInactiveWatch] sampleInactiveWatch).1.length
        = [sampleInactiveWatch].length) :=
  ⟨(addToWatchlist_spec [sampleWatch] sampleWatch).1 sampleWatch (by decide) (by decide),
   (addToWatchlist_spec [sampleInactiveWatch] sampleInactiveWatch).2.1 sampleInactiveWatch
     (by decide) (by decide)⟩

/-! ### Claim C10 — acknowledgement updates are latest-wins -/

/-- C10: an acknowledgement event overwrites the stored ack level with the
event's value unconditionally — in particular a lower level regresses the
stored one — and the broadcast label is the ordinal list indexed at
`ack + 1`. -/
theorem ack_latest_wins_spec (db : List MessageRecord) (mid : String) (a : Int)
    (r : MessageRecord) (hfind : db.find? (fun m => m.messageId == mid) = some r) :
    (handleMessageAck db mid a).1.find? (fun m => m.messageId == mid)
      = some { r with ack := a }
    ∧ (handleMessageAck db mid a).2
      = { messageId := mid, ack := a, ackLabel := ackLabel a } := by
  refine ⟨?_, rfl⟩
  have hpr := List.find?_some hfind
  exact find?_findOneAndUpdate db _ _ r hfind (by simpa using hpr)

/-! ### Claim C3 — welcome message placeholder substitution -/

/-- C3 (code bug): with the welcome trigger enabled, template
`"Hi @\x7buser\x7d!"`, mention-on-join on and one joining member resolving to
number 123, exactly one send is issued with the member in the mention set —
but its text is `"Hi @@123!"`, not the intended `"Hi @123!"`: the
`"\x7buser\x7d"` replacement fires inside `"@\x7buser\x7d"`, leaving the literal `@`
and prepending a second one. -/
theorem welcome_placeholder_double_at :
    (handleGroupJoin [sampleWelcomeSettings] [] sampleLookup sampleJoin).2
      = [{ chatId := "G@g.us", message := "Hi @@123!",
           mentions := [{ idUser := "X", number := some "123" }] }]
    ∧ (handleGroupJoin [sampleWelcomeSettings] [] sampleLookup sampleJoin).1
      = [WsEvent.groupJoin sampleJoin]
    ∧ "Hi @@123!" ≠ "Hi @123!" := by
  decide

/-! ### Claim C6 — chronological pagination of getChatMessages -/

/-- `orderedInsert` appends at the end when the new element sorts after
everything present. -/
theorem orderedInsert_of_forall_not {α : Type} (r : α → α → Prop) [DecidableRel r]
    (a : α) (l : List α) (h : ∀ x ∈ l, ¬ r a x) :
    l.orderedInsert r a = l ++ [a] := by
  induction l with
  | nil => rfl
  | cons b t ih =>
    have hb : ¬ r a b := h b (by simp)
    simp only [List.orderedInsert, if_neg hb, List.cons_append]
    rw [ih (fun x hx => h x (List.mem_cons_of_mem _ hx))]

/-- Sorting newest-first reverses a list whose timestamps strictly
increase. -/
theorem insertionSort_desc_of_strict_asc (l : List MessageRecord)
    (h : l.Pairwise (fun a b => a.timestamp < b.timestamp)) :
    l.insertionSort Message.tsDesc = l.reverse := by
  induction l with
  | nil => rfl
  | cons a t ih =>
    rw [List.pairwise_cons] at h
    obtain ⟨ha, ht⟩ := h
    simp only [List.insertionSort]
    rw [ih ht, orderedInsert_of_forall_not Message.tsDesc a t.reverse ?hnot, List.reverse_cons]
    case hnot =>
      intro x hx
      have hax := ha x (List.mem_reverse.mp hx)
      simp only [Message.tsDesc]
      omega

/-- Taking the first `n` of the reverse, reversed, is dropping all but the
last `n`. -/
theorem reverse_take_reverse {α : Type} (l : List α) (n : Nat) :
    (l.reverse.take n).reverse = l.drop (l.length - n) := by
  induction l with
  | nil => simp
  | cons a t ih =>
    by_cases hn : n ≤ t.length
    · rw [List.reverse_cons, List.take_append_of_le_length (by simpa using hn), ih]
      have harith : (a :: t).length - n = (t.length - n) + 1 := by
        simp only [List.length_cons]
        omega
      rw [harith, List.drop_succ_cons]
    · have hlen : (t.reverse ++ [a]).length ≤ n := by
        simp only [List.length_append, List.length_reverse, List.length_cons,
          List.length_nil]
        omega
      rw [List.reverse_cons, List.take_of_length_le hlen]
      have harith : (a :: t).length - n = 0 := by
        simp only [List.length_cons]
        omega
      rw [harith]
      simp

/-- The default query of `getChatMessages` keeps exactly the conversation's
non-deleted rows. -/
theorem chatQueryPred_default (c : String) (n : Nat) :
    Message.chatQueryPred c { limit := n } = fun m => m.chatId == c && !m.isDeleted := by
  funext m
  simp [Message.chatQueryPred]

/-- With `includeDeleted := true` the query keeps every row of the
conversation. -/
theorem chatQueryPred_includeDeleted (c : String) (n : Nat) :
    Message.chatQueryPred c { limit := n, includeDeleted := true }
      = fun m => m.chatId == c := by
  funext m
  simp [Message.chatQueryPred]

/-- C6: when a conversation's stored non-deleted messages have strictly
increasing timestamps, `getChatMessages` with `limit := n` returns exactly
the last `n` of them (the `n` most recent), still in ascending order,
excluding soft-deleted rows. -/
theorem getChatMessages_most_recent_ascending (db : List MessageRecord)
    (c : String) (n : Nat)
    (hasc : (db.filter (fun m => m.chatId == c && !m.isDeleted)).Pairwise
      (fun a b => a.timestamp < b.timestamp)) :
    Message.getChatMessages db c { limit := n }
      = (db.filter (fun m => m.chatId == c && !m.isDeleted)).drop
          ((db.filter (fun m => m.chatId == c && !m.isDeleted)).length - n) := by
  unfold Message.getChatMessages
  rw [chatQueryPred_default]
  rw [insertionSort_desc_of_strict_asc _ hasc]
  exact reverse_take_reverse _ n

/-- Witness for C6: three live messages at timestamps 1 < 2 < 3 plus one
soft-deleted row; limit 2 returns the two most recent in ascending order. -/
theorem getChatMessages_most_recent_ascending_witness :
    Message.getChatMessages
        [chatMsg "a" 1, chatMsg "b" 2, { chatMsg "d" 10 with isDeleted := true },
          chatMsg "e" 3] "chat1" { limit := 2 }
      = ([chatMsg "a" 1, chatMsg "b" 2, { chatMsg "d" 10 with isDeleted := true },
          chatMsg "e" 3].filter (fun m => m.chatId == "chat1" && !m.isDeleted)).drop
          (([chatMsg "a" 1, chatMsg "b" 2, { chatMsg "d" 10 with isDeleted := true },
            chatMsg "e" 3].filter
              (fun m => m.chatId == "chat1" && !m.isDeleted)).length - 2) :=
  getChatMessages_most_recent_ascending _ "chat1" 2 (by decide)

/-! ### Claim C5 — revoke-for-everyone tombstoning -/

/-- Filtering after mapping is mapping after filtering the composed
predicate. -/
theorem filter_of_map {α β : Type} (f : α → β) (p : β → Bool) (l : List α) :
    (l.map f).filter p = (l.filter (fun x => p (f x))).map f := by
  induction l with
  | nil => rfl
  | cons a t ih =>
    cases hpa : p (f a) with
    | true => simp [hpa, ih]
    | false => simp [hpa, ih]

/-- C5: after a revoke of a stored message `r` (unique ids, conversation
small enough for one page): the store holds `r` marked deleted with the
tombstone body; the default `getChatMessages` page no longer contains `r`'s
id; the `includeDeleted` page contains it with the tombstone body and
`isDeleted = true`; and the broadcast payload carries only the message
id. -/
theorem revoke_tombstone_spec (db : List MessageRecord) (r : MessageRecord) (n : Nat)
    (huniq : db.Pairwise (fun a b => a.messageId ≠ b.messageId))
    (hr : r ∈ db)
    (hlim : (db.filter (fun m => m.chatId == r.chatId)).length ≤ n) :
    ({ r with isDeleted := true, body := tombstoneBody }
        ∈ (handleMessageRevoke db (some r.messageId)).1)
    ∧ (∀ x ∈ Message.getChatMessages (handleMessageRevoke db (some r.messageId)).1
          r.chatId { limit := n }, x.messageId ≠ r.messageId)
    ∧ (∃ x ∈ Message.getChatMessages (handleMessageRevoke db (some r.messageId)).1
          r.chatId { limit := n, includeDeleted := true },
        x.messageId = r.messageId ∧ x.isDeleted = true ∧ x.body = tombstoneBody)
    ∧ (handleMessageRevoke db (some r.messageId)).2 = some ⟨r.messageId⟩ := by
  set g := fun x : MessageRecord =>
    if x.messageId == r.messageId then
      { x with isDeleted := true, body := tombstoneBody } else x with hg
  have hdb1 : (handleMessageRevoke db (some r.messageId)).1 = db.map g := by
    show findOneAndUpdate db (fun m => m.messageId == r.messageId)
        (fun m => { m with isDeleted := true, body := tombstoneBody }) = db.map g
    exact findOneAndUpdate_eq_map (fun m => m.messageId)
      (fun m => { m with isDeleted := true, body := tombstoneBody })
      db r.messageId huniq ⟨r, hr, rfl⟩
  have hgr : g r = { r with isDeleted := true, body := tombstoneBody } := by
    simp [hg]
  have hgchat : ∀ y : MessageRecord, (g y).chatId = y.chatId := by
    intro y
    by_cases hyid : y.messageId = r.messageId <;> simp [hg, hyid]
  refine ⟨?_, ?_, ?_, rfl⟩
  · rw [hdb1, ← hgr]
    exact List.mem_map_of_mem g hr
  · intro x hx heq
    rw [hdb1] at hx
    have hx1 : x ∈ (db.map g).filter (Message.chatQueryPred r.chatId { limit := n }) := by
      unfold Message.getChatMessages at hx
      exact (List.perm_insertionSort Message.tsDesc _).mem_iff.mp
        (List.mem_of_mem_take (List.mem_reverse.mp hx))
    rw [chatQueryPred_default] at hx1
    obtain ⟨hxmem, hxpred⟩ := List.mem_filter.mp hx1
    have hxdel : x.isDeleted = false := by
      rcases Bool.and_eq_true_iff.mp hxpred with ⟨h1, h2⟩
      simpa using h2
    obtain ⟨y, hy, hyx⟩ := List.mem_map.mp hxmem
    by_cases hyid : y.messageId = r.messageId
    · have hupd : g y = { y with isDeleted := true, body := tombstoneBody } := by
        simp [hg, hyid]
      rw [hupd] at hyx
      rw [← hyx] at hxdel
      simp at hxdel
    · have hid : g y = y := by simp [hg, hyid]
      rw [hid] at hyx
      rw [← hyx] at heq
      exact hyid heq
  · refine ⟨g r, ?_, by rw [hgr], by rw [hgr], by rw [hgr]⟩
    rw [hdb1]
    unfold Message.getChatMessages
    rw [chatQueryPred_includeDeleted]
    have hfilter : (db.map g).filter (fun m => m.chatId == r.chatId)
        = (db.filter (fun m => m.chatId == r.chatId)).map g := by
      rw [filter_of_map]
      congr 1
      apply List.filter_congr
      intro y hy
      rw [hgchat y]
    have hlen2 : ((db.map g).filter (fun m => m.chatId == r.chatId)).length ≤ n := by
      rw [hfilter, List.length_map]
      exact hlim
    have hmemflt : g r ∈ (db.map g).filter (fun m => m.chatId == r.chatId) := by
      rw [hfilter]
      exact List.mem_map_of_mem g (List.mem_filter.mpr ⟨hr, by simp⟩)
    have hsortlen :
        (((db.map g).filter (fun m => m.chatId == r.chatId)).insertionSort
          Message.tsDesc).length ≤ n := by
      rw [(List.perm_insertionSort Message.tsDesc _).length_eq]
      exact hlen2
    have hproj : ({ limit := n, includeDeleted := true } :
        Message.ChatQueryOptions).limit = n := rfl
    rw [hproj, List.take_of_length_le hsortlen]
    exact List.mem_reverse.mpr
      ((List.perm_insertionSort Message.tsDesc _).mem_iff.mpr hmemflt)

/-- Witness for C5 on a two-message store. -/
theorem revoke_tombstone_spec_witness :
    ({ chatMsg "a" 1 with isDeleted := true, body := tombstoneBody }
        ∈ (handleMessageRevoke [chatMsg "a" 1, chatMsg "b" 2]
            (some (chatMsg "a" 1).messageId)).1)
    ∧ (∀ x ∈ Message.getChatMessages
          (handleMessageRevoke [chatMsg "a" 1, chatMsg "b" 2]
            (some (chatMsg "a" 1).messageId)).1
          (chatMsg "a" 1).chatId { limit := 2 },
        x.messageId ≠ (chatMsg "a" 1).messageId)
    ∧ (∃ x ∈ Message.getChatMessages
          (handleMessageRevoke [chatMsg "a" 1, chatMsg "b" 2]
            (some (chatMsg "a" 1).messageId)).1
          (chatMsg "a" 1).chatId { limit := 2, includeDeleted := true },
        x.messageId = (chatMsg "a" 1).messageId ∧ x.isDeleted = true
          ∧ x.body = tombstoneBody)
    ∧ (handleMessageRevoke [chatMsg "a" 1, chatMsg "b" 2]
        (some (chatMsg "a" 1).messageId)).2 = some ⟨(chatMsg "a" 1).messageId⟩ :=
  revoke_tombstone_spec [chatMsg "a" 1, chatMsg "b" 2] (chatMsg "a" 1) 2
    (by decide) (by decide) (by decide)

/-- Witness for C10: a stored "read" (3) level is regressed to
"received" (2) by a later lower ack event. -/
theorem ack_latest_wins_spec_witness :
    (handleMessageAck [{ sampleRecord with ack := 3 }] "m1" 2).1.find?
        (fun m => m.messageId == "m1")
      = some { sampleRecord with ack := 2 }
    ∧ (handleMessageAck [{ sampleRecord with ack := 3 }] "m1" 2).2
      = { messageId := "m1", ack := 2, ackLabel := ackLabel 2 } :=
  ack_latest_wins_spec [{ sampleRecord with ack := 3 }] "m1" 2
    { sampleRecord with ack := 3 } (by decide)

end WwebBot
